import Mathlib

/-!
Verification development for the kubebuilder `alpha update` engine
(`pkg/cli/alpha/internal/update.go`).

The Go code is shallowly embedded: every external effect (process
invocation, HTTP request, filesystem operation, environment-variable
mutation) is modelled by an oracle environment `Env` that determines the
outcome of each effect, and every embedded function additionally returns
the list of effect `Event`s it issued, in order.  Process invocations are
numbered: the `k`-th invocation receives outcome `env.exec k`.
-/

namespace KubebuilderUpdate

/-- An external command: program name plus arguments, as passed to
`exec.Command`. -/
structure Cmd where
  prog : String
  args : List String
deriving DecidableEq, Repr

/-- Outcome of attempting to run an external process: it either started and
exited with a code, or could not be started at all. -/
inductive ExecOutcome where
  | exited (code : Nat)
  | startFailed (m : String)
deriving DecidableEq, Repr

/-- Result of one external process invocation: its exit outcome and the
bytes it wrote to stdout (used by `cmd.Output()`). -/
structure CmdOut where
  outcome : ExecOutcome
  stdout : String

/-- Observable effects issued by the engine, recorded in order. -/
inductive Event where
  | execCmd (c : Cmd)
  | tempDirCreate (pat : String)
  | fileCreate (path : String)
  | httpGet (url : String)
  | httpHead (url : String)
  | ioCopy
  | chmod (path : String) (mode : Nat)
  | setEnvPath (value : String)
  | loadProjectConfig
deriving DecidableEq, Repr

/-- Go error values as produced by this file: a plain message
(`errors.New` / `fmt.Errorf` without `%w`), a process `*exec.ExitError`
carrying the exit code, or a wrapping `fmt.Errorf("...: %w", err)`. -/
inductive GoError where
  | msg (s : String)
  | exitError (code : Nat)
  | wrap (pfx : String) (inner : GoError)
deriving DecidableEq, Repr

/-- The string `err.Error()` would render: wrapping joins with `": "` and an
exit error renders as Go prints it. -/
def GoError.render : GoError → String
  | .msg s => s
  | .exitError c => "exit status " ++ toString c
  | .wrap p e => p ++ ": " ++ e.render

/-- `cmd.Run()` semantics: `nil` iff the process exited 0; a nonzero exit
yields an `*exec.ExitError`; a start failure yields an ordinary error. -/
def runErr (o : ExecOutcome) : Option GoError :=
  match o with
  | .exited 0 => none
  | .exited c => some (.exitError c)
  | .startFailed m => some (.msg m)

/-- Oracle for the effects of `downloadKubebuilderBinary`: results of
`afero.TempDir`, `os.Create`, `http.Get` (network error or status code),
`io.Copy` and `os.Chmod`, in the order the code performs them. -/
structure DlEnv where
  tempDirResult : Except String String
  createErr : Option String
  httpGetResult : Except String Nat
  copyErr : Option String
  chmodErr : Option String

/-- Oracle for `loadConfigFile`: whether `LoadFrom` fails (with a message),
whether the PROJECT file is absent (`os.IsNotExist` on the stat), and the
`cliVersion` field read on success. -/
structure FsEnv where
  loadErr : Option String
  projectFileMissing : Bool
  cliVersion : String

/-- The full oracle environment of one engine run.  `currentBranch` is the
branch the repository actually has checked out; the code never reads it,
it is part of the model only so that spec-level claims about "the
repository's current/default branch" can be stated. -/
structure Env where
  exec : Nat → CmdOut
  goos : String
  goarch : String
  pathVar : String
  setenvErr : Option String
  dl : DlEnv
  fs : FsEnv
  headResult : Except String Nat
  currentBranch : String

/-- The `Update` options struct of `update.go`. -/
structure Update where
  FromVersion : String
  FromBranch : String
  CliVersion : String
deriving DecidableEq, Repr

/-- `strings.HasPrefix(s, "v")`: the first character is `v`. -/
def startsWithV (s : String) : Bool :=
  match s.data with
  | [] => false
  | c :: _ => c = 'v'

/-- `defineFromVersion`: if `--from-version` was given, prepend `v` when
absent and let it override the PROJECT-file version. -/
def defineFromVersion (opts : Update) : Update :=
  if opts.FromVersion ≠ "" then
    let fv := if startsWithV opts.FromVersion then opts.FromVersion
              else "v" ++ opts.FromVersion
    { opts with FromVersion := fv, CliVersion := fv }
  else opts

/-! ### `golang.org/x/mod/semver.IsValid`, as used by `validateSemVerVersion` -/

/-- A semver identifier character: ASCII letter, digit or hyphen. -/
def isIdentCh (c : Char) : Bool :=
  (('A' ≤ c && c ≤ 'Z') || ('a' ≤ c && c ≤ 'z')) || (c.isDigit || c = '-')

/-- `semver.isBadNum`: all digits, longer than one character, leading zero. -/
def isBadNum (v : List Char) : Bool :=
  v.all Char.isDigit && decide (v.length > 1) && v.head? = some '0'

/-- `semver.parseInt`: consume a leading run of digits (no leading zero
unless the number is exactly `0`), returning the rest. -/
def parseIntSem (v : List Char) : Option (List Char) :=
  match v with
  | [] => none
  | c :: cs =>
    if c.isDigit then
      let ds := List.takeWhile Char.isDigit (c :: cs)
      if c = '0' && ds.length ≠ 1 then none
      else some (List.dropWhile Char.isDigit (c :: cs))
    else none

/-- Split a character list at every dot. -/
def splitOnDot : List Char → List (List Char)
  | [] => [[]]
  | c :: rest =>
    if c = '.' then [] :: splitOnDot rest
    else
      match splitOnDot rest with
      | s :: ss => (c :: s) :: ss
      | [] => [[c]]

/-- `semver.parsePrerelease`: a `-` followed by dot-separated, nonempty
identifiers (ident characters only, numeric ones without leading zeros),
stopping at the first `+`.  Returns the rest on success. -/
def parsePre (v : List Char) : Option (List Char) :=
  match v with
  | '-' :: rest =>
    let body := rest.takeWhile (fun c => c ≠ '+')
    if body.all (fun c => isIdentCh c || c = '.') &&
       (splitOnDot body).all (fun seg => !seg.isEmpty && !isBadNum seg) then
      some (rest.dropWhile (fun c => c ≠ '+'))
    else none
  | _ => none

/-- `semver.parseBuild`: a `+` followed by dot-separated, nonempty
identifier segments, consuming the whole rest. -/
def parseBuild (v : List Char) : Option (List Char) :=
  match v with
  | '+' :: rest =>
    if rest.all (fun c => isIdentCh c || c = '.') &&
       (splitOnDot rest).all (fun seg => !seg.isEmpty) then
      some []
    else none
  | _ => none

/-- `semver.parse` success, on the part after the major number: optional
`.minor`, optional `.patch`, optional prerelease and build, nothing left. -/
def semverTail (r1 : List Char) : Bool :=
  match r1 with
  | [] => true
  | '.' :: r2 =>
    match parseIntSem r2 with
    | none => false
    | some r3 =>
      match r3 with
      | [] => true
      | '.' :: r4 =>
        match parseIntSem r4 with
        | none => false
        | some r5 =>
          let r6 := match r5 with
            | '-' :: _ => parsePre r5
            | _ => some r5
          match r6 with
          | none => false
          | some s6 =>
            let r7 := match s6 with
              | '+' :: _ => parseBuild s6
              | _ => some s6
            match r7 with
            | none => false
            | some s7 => s7.isEmpty
      | _ => false
  | _ => false

/-- `semver.IsValid`: a leading `v`, a major number, then `semverTail`. -/
def semverIsValid (s : String) : Bool :=
  match s.data with
  | 'v' :: rest =>
    match parseIntSem rest with
    | none => false
    | some r1 => semverTail r1
  | _ => false

/-- `validateSemVerVersion`: reject when `semver.IsValid` fails. -/
def validateSemVerVersion (opts : Update) : Option GoError :=
  if !semverIsValid opts.CliVersion then
    some (.msg "invalid semantic version. Expect: X.X.X (Ex.: v4.5.0)")
  else none

/-- Sanity checks of the `semver.IsValid` embedding on representative
inputs (with and without prerelease/build parts, leading zeros, missing
`v`). -/
theorem semverIsValid_sanity :
    semverIsValid "v4.5.0" = true ∧
    semverIsValid "v4.5.0-rc.1+meta" = true ∧
    semverIsValid "4.5.0" = false ∧
    semverIsValid "v04.5" = false ∧
    semverIsValid "v4" = true ∧
    semverIsValid "v4.5.0-rc..1" = false := by decide

/-! ### Release fetcher -/

/-- The GitHub release artifact URL built by both `downloadKubebuilderBinary`
and `validateBinaryAvailability`. -/
def releaseURL (ver goos goarch : String) : String :=
  "https://github.com/kubernetes-sigs/kubebuilder/releases/download/" ++ ver ++
    "/kubebuilder_" ++ goos ++ "_" ++ goarch

/-- `downloadKubebuilderBinary`: create a temp directory, create the binary
file, GET the release URL, require status 200, copy the body, chmod 0o755.
Returns the Go pair `(tempDir, err)` plus the effect trace. -/
def downloadKubebuilderBinary (opts : Update) (env : Env) :
    (String × Option GoError) × List Event :=
  let url := releaseURL opts.CliVersion env.goos env.goarch
  let pat := "kubebuilder" ++ opts.CliVersion ++ "-"
  match env.dl.tempDirResult with
  | .error m =>
      (("", some (.wrap "failed to create temporary directory" (.msg m))),
       [.tempDirCreate pat])
  | .ok tempDir =>
    let binaryPath := tempDir ++ "/kubebuilder"
    match env.dl.createErr with
    | some m =>
        (("", some (.wrap "failed to create the binary file" (.msg m))),
         [.tempDirCreate pat, .fileCreate binaryPath])
    | none =>
      match env.dl.httpGetResult with
      | .error m =>
          (("", some (.wrap "failed to download the binary" (.msg m))),
           [.tempDirCreate pat, .fileCreate binaryPath, .httpGet url])
      | .ok status =>
        if status ≠ 200 then
          (("", some (.msg ("failed to download the binary: HTTP " ++ toString status))),
           [.tempDirCreate pat, .fileCreate binaryPath, .httpGet url])
        else
          match env.dl.copyErr with
          | some m =>
              (("", some (.wrap "failed to write the binary content to file" (.msg m))),
               [.tempDirCreate pat, .fileCreate binaryPath, .httpGet url, .ioCopy])
          | none =>
            match env.dl.chmodErr with
            | some m =>
                (("", some (.wrap "failed to make binary executable" (.msg m))),
                 [.tempDirCreate pat, .fileCreate binaryPath, .httpGet url, .ioCopy,
                  .chmod binaryPath 493])
            | none =>
                ((tempDir, none),
                 [.tempDirCreate pat, .fileCreate binaryPath, .httpGet url, .ioCopy,
                  .chmod binaryPath 493])

/-! ### VCS branch-building steps -/

/-- `checkoutAncestorBranch`: `git checkout -b ancestor`. -/
def checkoutAncestorBranch (env : Env) (k : Nat) :
    Option GoError × Nat × List Event :=
  let c : Cmd := ⟨"git", ["checkout", "-b", "ancestor"]⟩
  match runErr (env.exec k).outcome with
  | some e =>
      (some (.wrap "failed to create and checkout ancestor branch" e), k + 1, [.execCmd c])
  | none => (none, k + 1, [.execCmd c])

/-- The exact `find` invocation of `cleanUpAncestorBranch`: delete every
top-level entry except `.git` and `PROJECT`. -/
def cleanUpFindCmd : Cmd :=
  ⟨"find", [".", "-mindepth", "1", "-maxdepth", "1",
            "!", "-name", ".git",
            "!", "-name", "PROJECT",
            "-exec", "rm", "-rf", "\x7b\x7d", "+"]⟩

/-- Semantics of `cleanUpFindCmd` on the repository root listing: `find`
with `-mindepth 1 -maxdepth 1` visits exactly the top-level entries, the
two `! -name` tests deselect `.git` and `PROJECT`, and `-exec rm -rf`
deletes every selected entry.  Returns `(deleted, remaining)`. -/
def findCleanupRun (entries : List String) : List String × List String :=
  (entries.filter (fun n => !(n == ".git" || n == "PROJECT")),
   entries.filter (fun n => n == ".git" || n == "PROJECT"))

/-- `cleanUpAncestorBranch`: run the `find` cleanup, `git add .`, and
commit the clean state. -/
def cleanUpAncestorBranch (env : Env) (k : Nat) :
    Option GoError × Nat × List Event :=
  let c2 : Cmd := ⟨"git", ["add", "."]⟩
  let c3 : Cmd := ⟨"git", ["commit", "-m", "Clean up the ancestor branch"]⟩
  match runErr (env.exec k).outcome with
  | some e =>
      (some (.wrap "failed to clean up files in ancestor branch" e), k + 1,
       [.execCmd cleanUpFindCmd])
  | none =>
    match runErr (env.exec (k + 1)).outcome with
    | some e =>
        (some (.wrap "failed to stage changes in ancestor" e), k + 2,
         [.execCmd cleanUpFindCmd, .execCmd c2])
    | none =>
      match runErr (env.exec (k + 2)).outcome with
      | some e =>
          (some (.wrap "failed to commit the cleanup in ancestor branch" e), k + 3,
           [.execCmd cleanUpFindCmd, .execCmd c2, .execCmd c3])
      | none =>
          (none, k + 3, [.execCmd cleanUpFindCmd, .execCmd c2, .execCmd c3])

/-- `runAlphaGenerate`: prepend the temp dir to PATH, run the downloaded
binary with `alpha generate`, stage and commit; the deferred `Setenv`
restores the original PATH on every exit after the first succeeded. -/
def runAlphaGenerate (tempDir version : String) (env : Env) (k : Nat) :
    Option GoError × Nat × List Event :=
  let tempBinaryPath := tempDir ++ "/kubebuilder"
  let tempEnvPath := tempDir ++ ":" ++ env.pathVar
  match env.setenvErr with
  | some m =>
      (some (.wrap "failed to set temporary PATH" (.msg m)), k, [.setEnvPath tempEnvPath])
  | none =>
    let c1 : Cmd := ⟨tempBinaryPath, ["alpha", "generate"]⟩
    let c2 : Cmd := ⟨"git", ["add", "."]⟩
    let c3 : Cmd := ⟨"git", ["commit", "-m", "Re-scaffold in ancestor"]⟩
    match runErr (env.exec k).outcome with
    | some e =>
        (some (.wrap "failed to run alpha generate" e), k + 1,
         [.setEnvPath tempEnvPath, .execCmd c1, .setEnvPath env.pathVar])
    | none =>
      match runErr (env.exec (k + 1)).outcome with
      | some e =>
          (some (.wrap "failed to stage changes in ancestor" e), k + 2,
           [.setEnvPath tempEnvPath, .execCmd c1, .execCmd c2, .setEnvPath env.pathVar])
      | none =>
        match runErr (env.exec (k + 2)).outcome with
        | some e =>
            (some (.wrap "failed to commit changes in ancestor" e), k + 3,
             [.setEnvPath tempEnvPath, .execCmd c1, .execCmd c2, .execCmd c3,
              .setEnvPath env.pathVar])
        | none =>
            (none, k + 3,
             [.setEnvPath tempEnvPath, .execCmd c1, .execCmd c2, .execCmd c3,
              .setEnvPath env.pathVar])

/-- `checkoutCurrentOffAncestor`: branch `current` off `ancestor`, overlay
the user's tree from `FromBranch`, stage, commit. -/
def checkoutCurrentOffAncestor (opts : Update) (env : Env) (k : Nat) :
    Option GoError × Nat × List Event :=
  let c1 : Cmd := ⟨"git", ["checkout", "-b", "current", "ancestor"]⟩
  let c2 : Cmd := ⟨"git", ["checkout", opts.FromBranch, "--", "."]⟩
  let c3 : Cmd := ⟨"git", ["add", "."]⟩
  let c4 : Cmd := ⟨"git", ["commit", "-m", "Add content from main onto current branch"]⟩
  match runErr (env.exec k).outcome with
  | some e =>
      (some (.wrap "failed to checkout current branch off ancestor" e), k + 1, [.execCmd c1])
  | none =>
    match runErr (env.exec (k + 1)).outcome with
    | some e =>
        (some (.wrap "failed to checkout content from default branch onto current" e),
         k + 2, [.execCmd c1, .execCmd c2])
    | none =>
      match runErr (env.exec (k + 2)).outcome with
      | some e =>
          (some (.wrap "failed to stage all changes in current" e), k + 3,
           [.execCmd c1, .execCmd c2, .execCmd c3])
      | none =>
        match runErr (env.exec (k + 3)).outcome with
        | some e =>
            (some (.wrap "failed to commit changes" e), k + 4,
             [.execCmd c1, .execCmd c2, .execCmd c3, .execCmd c4])
        | none =>
            (none, k + 4, [.execCmd c1, .execCmd c2, .execCmd c3, .execCmd c4])

/-- `checkoutUpgradeOffAncestor`: branch `upgrade` off `ancestor`, run the
installed `kubebuilder alpha generate`, stage, commit. -/
def checkoutUpgradeOffAncestor (env : Env) (k : Nat) :
    Option GoError × Nat × List Event :=
  let c1 : Cmd := ⟨"git", ["checkout", "-b", "upgrade", "ancestor"]⟩
  let c2 : Cmd := ⟨"kubebuilder", ["alpha", "generate"]⟩
  let c3 : Cmd := ⟨"git", ["add", "."]⟩
  let c4 : Cmd := ⟨"git", ["commit", "-m", "alpha generate in upgrade branch"]⟩
  match runErr (env.exec k).outcome with
  | some e =>
      (some (.wrap "failed to checkout upgrade branch off ancestor" e), k + 1, [.execCmd c1])
  | none =>
    match runErr (env.exec (k + 1)).outcome with
    | some e =>
        (some (.wrap "failed to run alpha generate on upgrade branch" e), k + 2,
         [.execCmd c1, .execCmd c2])
    | none =>
      match runErr (env.exec (k + 2)).outcome with
      | some e =>
          (some (.wrap "failed to stage changes on upgrade" e), k + 3,
           [.execCmd c1, .execCmd c2, .execCmd c3])
      | none =>
        match runErr (env.exec (k + 3)).outcome with
        | some e =>
            (some (.wrap "failed to commit changes in upgrade branch" e), k + 4,
             [.execCmd c1, .execCmd c2, .execCmd c3, .execCmd c4])
        | none =>
            (none, k + 4, [.execCmd c1, .execCmd c2, .execCmd c3, .execCmd c4])

/-- `checkoutMergeOffCurrent`: `git checkout -b merge current`. -/
def checkoutMergeOffCurrent (env : Env) (k : Nat) :
    Option GoError × Nat × List Event :=
  let c : Cmd := ⟨"git", ["checkout", "-b", "merge", "current"]⟩
  match runErr (env.exec k).outcome with
  | some e =>
      (some (.wrap "failed to checkout merge branch off current" e), k + 1, [.execCmd c])
  | none => (none, k + 1, [.execCmd c])

/-- `mergeUpgradeIntoMerge`: `git merge upgrade`; an `*exec.ExitError` with
exit code exactly 1 (merge conflicts) is swallowed with a warning, every
other failure is wrapped and returned. -/
def mergeUpgradeIntoMerge (env : Env) (k : Nat) :
    Option GoError × Nat × List Event :=
  let c : Cmd := ⟨"git", ["merge", "upgrade"]⟩
  match runErr (env.exec k).outcome with
  | none => (none, k + 1, [.execCmd c])
  | some (.exitError 1) => (none, k + 1, [.execCmd c])
  | some e =>
      (some (.wrap "failed to merge the upgrade branch into the merge branch" e),
       k + 1, [.execCmd c])

/-! ### The `Update` orchestrator -/

/-- The eight stage-identifying wrapper messages of `Update.Update`, in
execution order (stage numbers 1..8). -/
def stageWrapMsg (opts : Update) : Nat → String
  | 1 => "failed to download Kubebuilder " ++ opts.CliVersion ++ " binary"
  | 2 => "failed to checkout the ancestor branch"
  | 3 => "failed to clean up the ancestor branch"
  | 4 => "failed to run alpha generate on ancestor branch"
  | 5 => "failed to checkout current off ancestor"
  | 6 => "failed to checkout upgrade off ancestor"
  | 7 => "failed to checkout merge branch off current"
  | 8 => "failed to merge upgrade into merge branch"
  | _ => ""

/-- `(opts *Update) Update()`: the eight-stage sequence, each stage wrapped
with its identifying message, aborting at the first failure.  `k` is the
index of the next external process invocation. -/
def Update.Update (opts : Update) (env : Env) (k : Nat) :
    Option GoError × Nat × List Event :=
  match downloadKubebuilderBinary opts env with
  | ((_, some e), t1) => (some (.wrap (stageWrapMsg opts 1) e), k, t1)
  | ((tempDir, none), t1) =>
  match checkoutAncestorBranch env k with
  | (some e, k1, t2) => (some (.wrap (stageWrapMsg opts 2) e), k1, t1 ++ t2)
  | (none, k1, t2) =>
  match cleanUpAncestorBranch env k1 with
  | (some e, k2, t3) => (some (.wrap (stageWrapMsg opts 3) e), k2, t1 ++ t2 ++ t3)
  | (none, k2, t3) =>
  match runAlphaGenerate tempDir opts.CliVersion env k2 with
  | (some e, k3, t4) => (some (.wrap (stageWrapMsg opts 4) e), k3, t1 ++ t2 ++ t3 ++ t4)
  | (none, k3, t4) =>
  match checkoutCurrentOffAncestor opts env k3 with
  | (some e, k4, t5) =>
      (some (.wrap (stageWrapMsg opts 5) e), k4, t1 ++ t2 ++ t3 ++ t4 ++ t5)
  | (none, k4, t5) =>
  match checkoutUpgradeOffAncestor env k4 with
  | (some e, k5, t6) =>
      (some (.wrap (stageWrapMsg opts 6) e), k5, t1 ++ t2 ++ t3 ++ t4 ++ t5 ++ t6)
  | (none, k5, t6) =>
  match checkoutMergeOffCurrent env k5 with
  | (some e, k6, t7) =>
      (some (.wrap (stageWrapMsg opts 7) e), k6, t1 ++ t2 ++ t3 ++ t4 ++ t5 ++ t6 ++ t7)
  | (none, k6, t7) =>
  match mergeUpgradeIntoMerge env k6 with
  | (some e, k7, t8) =>
      (some (.wrap (stageWrapMsg opts 8) e), k7,
       t1 ++ t2 ++ t3 ++ t4 ++ t5 ++ t6 ++ t7 ++ t8)
  | (none, k7, t8) =>
      (none, k7, t1 ++ t2 ++ t3 ++ t4 ++ t5 ++ t6 ++ t7 ++ t8)

/-! ### Validation -/

/-- `loadConfigFile`: load the PROJECT file, distinguishing a missing file
from a malformed one; returns the `cliVersion` field on success. -/
def loadConfigFile (fs : FsEnv) : Except GoError String :=
  match fs.loadErr with
  | none => .ok fs.cliVersion
  | some m =>
    if fs.projectFileMissing then
      .error (.msg "no PROJECT file found. Make sure you are in the project root directory")
    else .error (.wrap "fail to load the PROJECT file" (.msg m))

/-- `unicode.IsSpace` on the characters Go considers white space in ASCII
text (space, tab, newline, vertical tab, form feed, carriage return). -/
def isSpaceCh (c : Char) : Bool :=
  c = ' ' || c = '\t' || c = '\n' || c = Char.ofNat 11 || c = Char.ofNat 12 || c = '\r'

/-- `strings.TrimSpace`: drop white space from both ends. -/
def trimSpace (s : String) : String :=
  String.mk (((s.data.dropWhile isSpaceCh).reverse.dropWhile isSpaceCh).reverse)

/-- `validateGitRepo`: `git rev-parse --git-dir` must succeed, then
`git status --porcelain` must succeed and print only whitespace. -/
def validateGitRepo (env : Env) (k : Nat) :
    Option GoError × Nat × List Event :=
  let c1 : Cmd := ⟨"git", ["rev-parse", "--git-dir"]⟩
  let c2 : Cmd := ⟨"git", ["status", "--porcelain"]⟩
  match runErr (env.exec k).outcome with
  | some _ => (some (.msg "not in a git repository"), k + 1, [.execCmd c1])
  | none =>
    match runErr (env.exec (k + 1)).outcome with
    | some e =>
        (some (.wrap "failed to check branch status" e), k + 2, [.execCmd c1, .execCmd c2])
    | none =>
      if ((trimSpace (env.exec (k + 1)).stdout).data.length > 0) then
        (some (.msg "working directory has uncommitted changes. Please commit or stash them before updating"),
         k + 2, [.execCmd c1, .execCmd c2])
      else (none, k + 2, [.execCmd c1, .execCmd c2])

/-- `validateFromBranch`: default `FromBranch` to `main` when unset, then
require `git rev-parse --verify <branch>` to succeed. -/
def validateFromBranch (opts : Update) (env : Env) (k : Nat) :
    Option GoError × Update × Nat × List Event :=
  let opts1 := if opts.FromBranch = "" then { opts with FromBranch := "main" } else opts
  let c : Cmd := ⟨"git", ["rev-parse", "--verify", opts1.FromBranch]⟩
  match runErr (env.exec k).outcome with
  | some _ =>
      (some (.msg (opts1.FromBranch ++
        " branch does not exist locally. Run git branch -a to see all available branches")),
       opts1, k + 1, [.execCmd c])
  | none => (none, opts1, k + 1, [.execCmd c])

/-- `validateBinaryAvailability`: HEAD the release URL; 200 is available,
404 is a missing release, anything else is unexpected; a transport error
is wrapped. -/
def validateBinaryAvailability (opts : Update) (env : Env) :
    Option GoError × List Event :=
  let url := releaseURL opts.CliVersion env.goos env.goarch
  match env.headResult with
  | .error m => (some (.wrap "failed to check binary availability" (.msg m)), [.httpHead url])
  | .ok status =>
    if status = 200 then (none, [.httpHead url])
    else if status = 404 then
      (some (.msg ("binary version " ++ opts.CliVersion ++
        " not found. Check versions available in releases")), [.httpHead url])
    else
      (some (.msg ("unexpected response " ++ toString status ++
        " when checking binary availability for version " ++ opts.CliVersion)),
       [.httpHead url])

/-- `Validate`: git repo and cleanliness, `--from-branch`, PROJECT file,
version resolution, semver format, binary availability — in that order,
each failure wrapped.  Returns the (possibly updated) options and the
index of the next process invocation. -/
def Validate (opts : Update) (env : Env) :
    Option GoError × Update × Nat × List Event :=
  match validateGitRepo env 0 with
  | (some e, k1, t1) => (some (.wrap "failed to validate git repository" e), opts, k1, t1)
  | (none, k1, t1) =>
  match validateFromBranch opts env k1 with
  | (some e, opts1, k2, t2) =>
      (some (.wrap "failed to validate --from-branch" e), opts1, k2, t1 ++ t2)
  | (none, opts1, k2, t2) =>
  match loadConfigFile env.fs with
  | .error e =>
      (some (.wrap "failed to load the PROJECT file" e), opts1, k2,
       t1 ++ t2 ++ [.loadProjectConfig])
  | .ok cfgVer =>
  let opts2 := { opts1 with CliVersion := cfgVer }
  let opts3 := defineFromVersion opts2
  match validateSemVerVersion opts3 with
  | some e =>
      (some (.wrap "failed to validate semantic version formatting" e), opts3, k2,
       t1 ++ t2 ++ [.loadProjectConfig])
  | none =>
  match validateBinaryAvailability opts3 env with
  | (some e, t3) =>
      (some (.wrap "failed to validate binary availability" e), opts3, k2,
       t1 ++ t2 ++ [.loadProjectConfig] ++ t3)
  | (none, t3) =>
      (none, opts3, k2, t1 ++ t2 ++ [.loadProjectConfig] ++ t3)

/-- The CLI wiring of the `alpha update` command: `Validate` runs as the
pre-run hook and `Update` only runs when it succeeded. -/
def runUpdateCmd (opts : Update) (env : Env) : Option GoError × List Event :=
  match Validate opts env with
  | (some e, _, _, t) => (some e, t)
  | (none, opts1, k, t) =>
    match Update.Update opts1 env k with
    | (r, _, t2) => (r, t ++ t2)

/-! ### Concrete environments for witnesses -/

/-- Download oracle in which every filesystem and network step succeeds. -/
def dlOk : DlEnv := ⟨.ok "/tmp/kubebuilderv4.5.2-1", none, .ok 200, none, none⟩

/-- PROJECT-file oracle: loads fine and carries cliVersion v4.5.2. -/
def fsOk : FsEnv := ⟨none, false, "v4.5.2"⟩

/-- Environment in which every external step succeeds. -/
def envOK : Env :=
  ⟨fun _ => ⟨.exited 0, ""⟩, "linux", "amd64", "/usr/bin", none, dlOk, fsOk, .ok 200, "main"⟩

/-- Environment whose every process invocation exits 1. -/
def envExit1 : Env := { envOK with exec := fun _ => ⟨.exited 1, ""⟩ }

/-- Environment whose every process invocation exits 2. -/
def envExit2 : Env := { envOK with exec := fun _ => ⟨.exited 2, ""⟩ }

/-- Environment whose first process invocation exits 128 and the rest 0. -/
def envExec0Fails : Env :=
  { envOK with exec := fun n => if n = 0 then ⟨.exited 128, ""⟩ else ⟨.exited 0, ""⟩ }

/-- All-success environment except the release HEAD check returns 404. -/
def env404 : Env := { envOK with headResult := .ok 404 }

/-- All-success environment whose repository has `master` checked out and
no `main` branch (the `--from-branch` verification exits 1). -/
def envMaster : Env :=
  { envOK with currentBranch := "master",
               exec := fun n => if n = 2 then ⟨.exited 1, ""⟩ else ⟨.exited 0, ""⟩ }

/-- Options as produced by flag defaults: everything empty. -/
def opts0 : Update := ⟨"", "", ""⟩

/-! ### Small string facts -/

theorem data_v_append (s : String) : ("v" ++ s).data = 'v' :: s.data := by
  rw [String.data_append]; rfl

theorem v_append_ne_empty (s : String) : ("v" ++ s) ≠ "" := by
  intro h
  have h2 := congrArg String.data h
  rw [String.data_append] at h2
  simp at h2

theorem startsWithV_v_append (s : String) : startsWithV ("v" ++ s) = true := by
  unfold startsWithV
  rw [data_v_append]
  simp

/-! ### C1: merge conflicts (exit code 1) are non-fatal, other failures are wrapped -/

/-- C1: in `mergeUpgradeIntoMerge`, a merge process exit code of exactly 1
yields success (`nil`), while every other nonzero exit code yields the
wrapped merge error carrying that exit code. -/
theorem mergeConflictExitCodeOneNonFatal (env : Env) (k : Nat) :
    ((env.exec k).outcome = .exited 1 → (mergeUpgradeIntoMerge env k).1 = none) ∧
    ((env.exec k).outcome = .exited 0 → (mergeUpgradeIntoMerge env k).1 = none) ∧
    (∀ c, (env.exec k).outcome = .exited c → c ≠ 0 → c ≠ 1 →
      (mergeUpgradeIntoMerge env k).1 =
        some (.wrap "failed to merge the upgrade branch into the merge branch"
          (.exitError c))) := by
  refine ⟨?_, ?_, ?_⟩
  · intro h
    simp [mergeUpgradeIntoMerge, runErr, h]
  · intro h
    simp [mergeUpgradeIntoMerge, runErr, h]
  · intro c h hc0 hc1
    match c, hc0, hc1 with
    | Nat.succ (Nat.succ m), _, _ =>
      simp [mergeUpgradeIntoMerge, runErr, h]

/-- C1 witness: exit code 1 gives success, exit code 2 gives the wrapped
error, at concrete environments. -/
theorem mergeConflictExitCodeOneNonFatal_witness :
    (mergeUpgradeIntoMerge envExit1 0).1 = none ∧
    (mergeUpgradeIntoMerge envExit2 0).1 =
      some (.wrap "failed to merge the upgrade branch into the merge branch"
        (.exitError 2)) := by
  constructor
  · exact (mergeConflictExitCodeOneNonFatal envExit1 0).1 rfl
  · exact (mergeConflictExitCodeOneNonFatal envExit2 0).2.2 2 rfl
      (by decide) (by decide)

/-! ### C4: merge branch comes off current, but the merge is NOT run with no-commit -/

/-- C4 counterexample: at a concrete environment the merge step issues
exactly `git merge upgrade`; the invocation does not carry the
`--no-commit` option, so the claim that the merge is invoked with the
no-commit option is false. -/
theorem mergeHasNoCommitOption_cex :
    (mergeUpgradeIntoMerge envOK 0).2.2 = [.execCmd ⟨"git", ["merge", "upgrade"]⟩] ∧
    "--no-commit" ∉ (Cmd.mk "git" ["merge", "upgrade"]).args ∧
    "--no-edit" ∉ (Cmd.mk "git" ["merge", "upgrade"]).args := by
  refine ⟨rfl, by decide, by decide⟩

/-- C4 (amended): the merge branch is created from `current` via
`git checkout -b merge current` and the upgrade branch is then merged with
a plain `git merge upgrade` — without the `--no-commit` option, so a clean
merge auto-commits by the default behavior of the merge tool. -/
theorem mergeBranchOffCurrentPlainMerge (env : Env) (k : Nat) :
    (checkoutMergeOffCurrent env k).2.2 =
      [.execCmd ⟨"git", ["checkout", "-b", "merge", "current"]⟩] ∧
    (mergeUpgradeIntoMerge env k).2.2 = [.execCmd ⟨"git", ["merge", "upgrade"]⟩] ∧
    "--no-commit" ∉ (Cmd.mk "git" ["merge", "upgrade"]).args := by
  refine ⟨?_, ?_, by decide⟩
  · unfold checkoutMergeOffCurrent
    cases h : runErr (env.exec k).outcome <;> simp [h]
  · unfold mergeUpgradeIntoMerge
    cases h : runErr (env.exec k).outcome with
    | none => simp [h]
    | some e =>
      cases e <;> simp [h]
      case exitError c => cases c with
        | zero => simp
        | succ m => cases m <;> simp

/-! ### C10: version resolution is idempotent and conservative -/

/-- C10: applying `defineFromVersion` twice yields the same `CliVersion` as
applying it once, and an empty `--from-version` override leaves
`CliVersion` untouched. -/
theorem defineFromVersionIdempotent (opts : Update) :
    (defineFromVersion (defineFromVersion opts)).CliVersion =
      (defineFromVersion opts).CliVersion ∧
    (opts.FromVersion = "" → (defineFromVersion opts).CliVersion = opts.CliVersion) := by
  constructor
  · by_cases h : opts.FromVersion = ""
    · simp [defineFromVersion, h]
    · by_cases hv : startsWithV opts.FromVersion
      · simp [defineFromVersion, h, hv]
      · simp [defineFromVersion, h, hv, v_append_ne_empty, startsWithV_v_append]
  · intro h
    simp [defineFromVersion, h]

/-- C10 witness: concrete checks of both parts. -/
theorem defineFromVersionIdempotent_witness :
    (defineFromVersion (defineFromVersion ⟨"4.6.0", "", "v4.5.2"⟩)).CliVersion =
      (defineFromVersion ⟨"4.6.0", "", "v4.5.2"⟩).CliVersion ∧
    (Update.FromVersion ⟨"", "", "v4.5.2"⟩ = "" ∧
      (defineFromVersion ⟨"", "", "v4.5.2"⟩).CliVersion =
        Update.CliVersion ⟨"", "", "v4.5.2"⟩) := by
  refine ⟨(defineFromVersionIdempotent ⟨"4.6.0", "", "v4.5.2"⟩).1, rfl, ?_⟩
  exact (defineFromVersionIdempotent ⟨"", "", "v4.5.2"⟩).2 rfl

/-! ### C5: ancestor cleanup deletes everything except `.git` and `PROJECT` -/

/-- C5: the cleanup step issues the `find` deletion as its first action, and
that command deletes a top-level entry exactly when its name is neither
`.git` nor `PROJECT`; the `.git` and `PROJECT` entries survive unchanged. -/
theorem cleanupSparesGitAndProject (entries : List String) (n : String)
    (env : Env) (k : Nat) (h : n ∈ entries) :
    (n ∈ (findCleanupRun entries).1 ↔ ¬(n = ".git" ∨ n = "PROJECT")) ∧
    (n ∈ (findCleanupRun entries).2 ↔ (n = ".git" ∨ n = "PROJECT")) ∧
    (findCleanupRun entries).2 =
      entries.filter (fun m => m == ".git" || m == "PROJECT") ∧
    (cleanUpAncestorBranch env k).2.2.head? = some (.execCmd cleanUpFindCmd) := by
  refine ⟨?_, ?_, rfl, ?_⟩
  · simp [findCleanupRun, List.mem_filter, h]
  · simp [findCleanupRun, List.mem_filter, h]
  · unfold cleanUpAncestorBranch
    cases h1 : runErr (env.exec k).outcome with
    | some e => simp [h1]
    | none =>
      cases h2 : runErr (env.exec (k + 1)).outcome with
      | some e => simp [h1, h2]
      | none =>
        cases h3 : runErr (env.exec (k + 2)).outcome with
        | some e => simp [h1, h2, h3]
        | none => simp [h1, h2, h3]

/-- C5 witness: on the listing `[.git, PROJECT, Makefile, api]` the cleanup
deletes exactly `Makefile` (checked for that entry) and keeps the two
protected entries. -/
theorem cleanupSparesGitAndProject_witness :
    ("Makefile" ∈ [".git", "PROJECT", "Makefile", "api"] ∧
      ("Makefile" ∈ (findCleanupRun [".git", "PROJECT", "Makefile", "api"]).1 ↔
        ¬("Makefile" = ".git" ∨ "Makefile" = "PROJECT"))) ∧
    (findCleanupRun [".git", "PROJECT", "Makefile", "api"]).2 = [".git", "PROJECT"] := by
  refine ⟨⟨by decide, ?_⟩, by decide⟩
  exact (cleanupSparesGitAndProject [".git", "PROJECT", "Makefile", "api"]
    "Makefile" envOK 0 (by decide)).1

/-! ### C7: default base branch is the fixed name `main`, not the current branch -/

/-- C7 counterexample: in a repository whose current branch is `master`,
leaving `--from-branch` unset makes `validateFromBranch` pick `main` — not
the repository's current branch — and validation fails even though the
current branch exists. -/
theorem fromBranchDefaultsToCurrent_cex :
    (validateFromBranch opts0 envMaster 0).2.1.FromBranch ≠ envMaster.currentBranch ∧
    (validateFromBranch opts0 envMaster 0).2.1.FromBranch = "main" := by
  constructor
  · intro h
    exact absurd (congrArg String.data h) (by decide)
  · rfl

/-- C7 (amended): when no base branch is supplied, `FromBranch` defaults to
the fixed branch name `main` (a supplied name is kept), and validation
fails with the branch-does-not-exist error when `git rev-parse --verify`
on the resulting branch fails. -/
theorem fromBranchDefaultsToMain (opts : Update) (env : Env) (k : Nat) :
    (opts.FromBranch = "" → (validateFromBranch opts env k).2.1.FromBranch = "main") ∧
    (opts.FromBranch ≠ "" →
      (validateFromBranch opts env k).2.1.FromBranch = opts.FromBranch) ∧
    (∀ e, runErr (env.exec k).outcome = some e →
      (validateFromBranch opts env k).1 =
        some (.msg ((if opts.FromBranch = "" then "main" else opts.FromBranch) ++
          " branch does not exist locally. Run git branch -a to see all available branches"))) := by
  refine ⟨?_, ?_, ?_⟩
  · intro h
    unfold validateFromBranch
    cases h1 : runErr (env.exec k).outcome <;> simp [h, h1]
  · intro h
    unfold validateFromBranch
    cases h1 : runErr (env.exec k).outcome <;> simp [h, h1]
  · intro e he
    unfold validateFromBranch
    by_cases h : opts.FromBranch = "" <;> simp [h, he]

/-- C7 witness: with no `--from-branch` and a failing branch verification,
the branch resolves to `main` and validation errors; a supplied branch
name is kept. -/
theorem fromBranchDefaultsToMain_witness :
    (validateFromBranch opts0 envMaster 0).2.1.FromBranch = "main" ∧
    (Update.FromBranch ⟨"", "dev", ""⟩ ≠ "" ∧
      (validateFromBranch ⟨"", "dev", ""⟩ envOK 0).2.1.FromBranch = "dev") ∧
    (validateFromBranch opts0 envExit1 0).1 =
      some (.msg ("main branch does not exist locally. Run git branch -a to see all available branches")) := by
  refine ⟨(fromBranchDefaultsToMain opts0 envMaster 0).1 rfl,
    ⟨by decide, (fromBranchDefaultsToMain ⟨"", "dev", ""⟩ envOK 0).2.1 (by decide)⟩, ?_⟩
  have h := (fromBranchDefaultsToMain opts0 envExit1 0).2.2 (.exitError 1) rfl
  simpa using h

/-! ### Shape of the validation trace -/

theorem validateGitRepo_events (env : Env) (k : Nat) :
    ∀ ev ∈ (validateGitRepo env k).2.2,
      ev = .execCmd ⟨"git", ["rev-parse", "--git-dir"]⟩ ∨
      ev = .execCmd ⟨"git", ["status", "--porcelain"]⟩ := by
  intro ev hev
  unfold validateGitRepo at hev
  cases h1 : runErr (env.exec k).outcome with
  | some e => simp [h1] at hev; simp [hev]
  | none =>
    cases h2 : runErr (env.exec (k + 1)).outcome with
    | some e => simp [h1, h2] at hev; tauto
    | none =>
      by_cases h3 : (0 < (trimSpace (env.exec (k + 1)).stdout).length) <;>
        simp [h1, h2, h3] at hev <;> tauto

theorem validateFromBranch_events (opts : Update) (env : Env) (k : Nat) :
    ∀ ev ∈ (validateFromBranch opts env k).2.2.2,
      ∃ b, ev = .execCmd ⟨"git", ["rev-parse", "--verify", b]⟩ := by
  intro ev hev
  unfold validateFromBranch at hev
  cases h1 : runErr (env.exec k).outcome <;> simp [h1] at hev <;>
    exact ⟨_, hev⟩

theorem validateBinaryAvailability_events (opts : Update) (env : Env) :
    ∀ ev ∈ (validateBinaryAvailability opts env).2, ∃ u, ev = .httpHead u := by
  intro ev hev
  unfold validateBinaryAvailability at hev
  cases h1 : env.headResult with
  | error m => simp [h1] at hev; exact ⟨_, hev⟩
  | ok status =>
    by_cases h2 : status = 200
    · simp [h1, h2] at hev; exact ⟨_, hev⟩
    · by_cases h3 : status = 404 <;> simp [h1, h2, h3] at hev <;> exact ⟨_, hev⟩

theorem validateFromBranch_keepsVersions (opts : Update) (env : Env) (k : Nat) :
    (validateFromBranch opts env k).2.1.FromVersion = opts.FromVersion ∧
    (validateFromBranch opts env k).2.1.CliVersion = opts.CliVersion := by
  unfold validateFromBranch
  by_cases h : opts.FromBranch = "" <;>
    cases h1 : runErr (env.exec k).outcome <;> simp [h, h1]

/-- The events `Validate` may record: the two read-only repo queries, a
branch verification, the PROJECT read, or the release HEAD probe. -/
def validationEvent (ev : Event) : Prop :=
  ev = .execCmd ⟨"git", ["rev-parse", "--git-dir"]⟩ ∨
  ev = .execCmd ⟨"git", ["status", "--porcelain"]⟩ ∨
  (∃ b, ev = .execCmd ⟨"git", ["rev-parse", "--verify", b]⟩) ∨
  ev = .loadProjectConfig ∨
  (∃ u, ev = .httpHead u)

theorem validate_events (opts : Update) (env : Env) :
    ∀ ev ∈ (Validate opts env).2.2.2, validationEvent ev := by
  unfold Validate
  cases hg : validateGitRepo env 0 with
  | mk rg rest =>
  cases rest with
  | mk k1 t1 =>
  have hg' : ∀ e ∈ t1, validationEvent e := by
    intro e he
    have := validateGitRepo_events env 0 e (by rw [hg]; exact he)
    unfold validationEvent; tauto
  cases rg with
  | some e => simpa [hg] using hg'
  | none =>
  cases hf : validateFromBranch opts env k1 with
  | mk rf rest2 =>
  cases rest2 with
  | mk opts1 rest3 =>
  cases rest3 with
  | mk k2 t2 =>
  have hf' : ∀ e ∈ t2, validationEvent e := by
    intro e he
    have := validateFromBranch_events opts env k1 e (by rw [hf]; exact he)
    unfold validationEvent; tauto
  have hlp : ∀ e ∈ [Event.loadProjectConfig], validationEvent e := by
    intro e he
    simp at he
    unfold validationEvent; tauto
  cases rf with
  | some e =>
    simpa [hf] using List.forall_mem_append.mpr ⟨hg', hf'⟩
  | none =>
  cases hl : loadConfigFile env.fs with
  | error e =>
    simpa [hf, hl] using List.forall_mem_append.mpr
      ⟨List.forall_mem_append.mpr ⟨hg', hf'⟩, hlp⟩
  | ok cfgVer =>
  cases hs : validateSemVerVersion
      (defineFromVersion { opts1 with CliVersion := cfgVer }) with
  | some e =>
    simpa [hf, hl, hs] using List.forall_mem_append.mpr
      ⟨List.forall_mem_append.mpr ⟨hg', hf'⟩, hlp⟩
  | none =>
  cases hb : validateBinaryAvailability
      (defineFromVersion { opts1 with CliVersion := cfgVer }) env with
  | mk rb t3 =>
  have hb' : ∀ e ∈ t3, validationEvent e := by
    intro e he
    have := validateBinaryAvailability_events
      (defineFromVersion { opts1 with CliVersion := cfgVer }) env e (by rw [hb]; exact he)
    unfold validationEvent; tauto
  cases rb with
  | some e =>
    simpa [hf, hl, hs, hb] using List.forall_mem_append.mpr
      ⟨List.forall_mem_append.mpr ⟨List.forall_mem_append.mpr ⟨hg', hf'⟩, hlp⟩, hb'⟩
  | none =>
    simpa [hf, hl, hs, hb] using List.forall_mem_append.mpr
      ⟨List.forall_mem_append.mpr ⟨List.forall_mem_append.mpr ⟨hg', hf'⟩, hlp⟩, hb'⟩

/-! ### The resolved version and the release URL -/

/-- The version the resolution step settles on: a normalized explicit
override when present, the PROJECT-file version otherwise. -/
def resolvedVersion (fromVer cfgVer : String) : String :=
  if fromVer ≠ "" then (if startsWithV fromVer then fromVer else "v" ++ fromVer)
  else cfgVer

theorem defineFromVersion_cliVersion (opts : Update) :
    (defineFromVersion opts).CliVersion =
      resolvedVersion opts.FromVersion opts.CliVersion := by
  unfold defineFromVersion resolvedVersion
  by_cases h : opts.FromVersion = "" <;>
    by_cases hv : startsWithV opts.FromVersion <;> simp [h, hv]

theorem loadConfigFile_ok (fs : FsEnv) (v : String)
    (h : loadConfigFile fs = .ok v) : v = fs.cliVersion := by
  unfold loadConfigFile at h
  cases h1 : fs.loadErr with
  | none => rw [h1] at h; cases h; rfl
  | some m =>
    rw [h1] at h
    by_cases h2 : fs.projectFileMissing <;> simp [h2] at h

theorem validateBinaryAvailability_headURL (opts : Update) (env : Env) :
    ∀ u, Event.httpHead u ∈ (validateBinaryAvailability opts env).2 →
      u = releaseURL opts.CliVersion env.goos env.goarch := by
  intro u hu
  unfold validateBinaryAvailability at hu
  cases h1 : env.headResult with
  | error m => simp [h1] at hu; first | exact hu | exact hu.symm
  | ok status =>
    by_cases h2 : status = 200
    · simp [h1, h2] at hu; first | exact hu | exact hu.symm
    · by_cases h3 : status = 404 <;> simp [h1, h2, h3] at hu <;>
        first | exact hu | exact hu.symm

/-- Every HEAD probe `Validate` issues targets the release URL built from
the resolved (normalized) source version. -/
theorem validate_headURL (opts : Update) (env : Env) :
    ∀ u, Event.httpHead u ∈ (Validate opts env).2.2.2 →
      u = releaseURL (resolvedVersion opts.FromVersion env.fs.cliVersion)
            env.goos env.goarch := by
  unfold Validate
  cases hg : validateGitRepo env 0 with
  | mk rg rest =>
  cases rest with
  | mk k1 t1 =>
  have hg' : ∀ u, Event.httpHead u ∈ t1 → False := by
    intro u hu
    rcases validateGitRepo_events env 0 _ (by rw [hg]; exact hu) with h | h <;> simp at h
  cases rg with
  | some e => intro u hu; simp [hg] at hu; exact absurd hu (hg' u)
  | none =>
  cases hf : validateFromBranch opts env k1 with
  | mk rf rest2 =>
  cases rest2 with
  | mk opts1 rest3 =>
  cases rest3 with
  | mk k2 t2 =>
  have hf' : ∀ u, Event.httpHead u ∈ t2 → False := by
    intro u hu
    rcases validateFromBranch_events opts env k1 _ (by rw [hf]; exact hu) with ⟨b, h⟩
    simp at h
  have hfv : opts1.FromVersion = opts.FromVersion := by
    have := (validateFromBranch_keepsVersions opts env k1).1
    rw [hf] at this
    exact this
  cases rf with
  | some e =>
    intro u hu
    simp [hf] at hu
    rcases hu with hu | hu
    · exact absurd hu (hg' u)
    · exact absurd hu (hf' u)
  | none =>
  cases hl : loadConfigFile env.fs with
  | error e =>
    intro u hu
    simp [hf, hl] at hu
    rcases hu with hu | hu
    · exact absurd hu (hg' u)
    · exact absurd hu (hf' u)
  | ok cfgVer =>
  have hcfg : cfgVer = env.fs.cliVersion := loadConfigFile_ok env.fs cfgVer hl
  cases hs : validateSemVerVersion
      (defineFromVersion { opts1 with CliVersion := cfgVer }) with
  | some e =>
    intro u hu
    simp [hf, hl, hs] at hu
    rcases hu with hu | hu
    · exact absurd hu (hg' u)
    · exact absurd hu (hf' u)
  | none =>
  cases hb : validateBinaryAvailability
      (defineFromVersion { opts1 with CliVersion := cfgVer }) env with
  | mk rb t3 =>
  have hb' : ∀ u, Event.httpHead u ∈ t3 →
      u = releaseURL (resolvedVersion opts.FromVersion env.fs.cliVersion)
            env.goos env.goarch := by
    intro u hu
    have := validateBinaryAvailability_headURL
      (defineFromVersion { opts1 with CliVersion := cfgVer }) env u (by rw [hb]; exact hu)
    rw [this, defineFromVersion_cliVersion]
    simp [hfv, hcfg]
  cases rb with
  | some e =>
    intro u hu
    simp [hf, hl, hs, hb] at hu
    rcases hu with hu | hu | hu
    · exact absurd hu (hg' u)
    · exact absurd hu (hf' u)
    · exact hb' u hu
  | none =>
    intro u hu
    simp [hf, hl, hs, hb] at hu
    rcases hu with hu | hu | hu
    · exact absurd hu (hg' u)
    · exact absurd hu (hf' u)
    · exact hb' u hu

/-! ### C3: version normalization before any URL use -/

/-- C3: `defineFromVersion` canonicalizes the override — `4.6.0` and
`v4.6.0` both resolve to `v4.6.0`, and in general a `v` is prepended
exactly when absent; moreover, with override `4.6.0`, every release URL
`Validate` probes is built from the normalized `v4.6.0`. -/
theorem defineFromVersionNormalizes (opts : Update) (env : Env) :
    ((defineFromVersion { opts with FromVersion := "4.6.0" }).CliVersion = "v4.6.0") ∧
    ((defineFromVersion { opts with FromVersion := "v4.6.0" }).CliVersion = "v4.6.0") ∧
    (opts.FromVersion ≠ "" → startsWithV opts.FromVersion = false →
      (defineFromVersion opts).CliVersion = "v" ++ opts.FromVersion) ∧
    (opts.FromVersion ≠ "" → startsWithV opts.FromVersion = true →
      (defineFromVersion opts).CliVersion = opts.FromVersion) ∧
    (opts.FromVersion = "4.6.0" →
      ∀ u, Event.httpHead u ∈ (Validate opts env).2.2.2 →
        u = releaseURL "v4.6.0" env.goos env.goarch) := by
  refine ⟨?_, ?_, ?_, ?_, ?_⟩
  · simp [defineFromVersion]
    decide
  · simp [defineFromVersion]
    decide
  · intro h hv
    simp [defineFromVersion, h, hv]
  · intro h hv
    simp [defineFromVersion, h, hv]
  · intro h u hu
    have := validate_headURL opts env u hu
    rw [this, h]
    rfl

/-- C3 witness: with override `4.6.0` and an all-success environment,
`Validate` indeed probes the URL built from `v4.6.0`. -/
theorem defineFromVersionNormalizes_witness :
    ((defineFromVersion ⟨"4.6.0", "", "v4.5.2"⟩).CliVersion = "v4.6.0") ∧
    ((defineFromVersion ⟨"v4.6.0", "", "v4.5.2"⟩).CliVersion = "v4.6.0") ∧
    (Update.FromVersion ⟨"4.6.0", "", ""⟩ = "4.6.0" ∧
      Event.httpHead (releaseURL "v4.6.0" "linux" "amd64") ∈
        (Validate ⟨"4.6.0", "", ""⟩ envOK).2.2.2 ∧
      releaseURL "v4.6.0" "linux" "amd64" =
        releaseURL "v4.6.0" envOK.goos envOK.goarch) := by
  have hmem : Event.httpHead (releaseURL "v4.6.0" "linux" "amd64") ∈
      (Validate ⟨"4.6.0", "", ""⟩ envOK).2.2.2 := by decide
  exact ⟨(defineFromVersionNormalizes ⟨"4.6.0", "", "v4.5.2"⟩ envOK).1,
    (defineFromVersionNormalizes ⟨"v4.6.0", "", "v4.5.2"⟩ envOK).2.1, rfl, hmem,
    (defineFromVersionNormalizes ⟨"4.6.0", "", ""⟩ envOK).2.2.2.2 rfl _ hmem⟩

/-! ### C2: binary availability is checked before any branch creation -/

/-- A VCS invocation that creates a branch: `git checkout -b`/`-B` or
`git branch`. -/
def isBranchCreating (c : Cmd) : Bool :=
  c.prog == "git" &&
    (c.args.take 2 == ["checkout", "-b"] || c.args.take 2 == ["checkout", "-B"] ||
     c.args.take 1 == ["branch"])

theorem validationEvent_not_branchCreating (c : Cmd)
    (h : validationEvent (.execCmd c)) : isBranchCreating c = false := by
  unfold validationEvent at h
  rcases h with h | h | ⟨b, h⟩ | h | ⟨u, h⟩ <;> first
    | (cases h; decide)
    | (cases h; simp [isBranchCreating])
    | simp at h

theorem validateBinaryAvailability_ok (opts : Update) (env : Env)
    (h : (validateBinaryAvailability opts env).1 = none) :
    env.headResult = .ok 200 := by
  unfold validateBinaryAvailability at h
  cases h1 : env.headResult with
  | error m => rw [h1] at h; simp at h
  | ok status =>
    rw [h1] at h
    by_cases h2 : status = 200
    · rw [h2]
    · by_cases h3 : status = 404 <;> simp [h2, h3] at h

/-- `Validate` succeeds only when the release HEAD probe returned 200. -/
theorem validate_ok_implies_avail (opts : Update) (env : Env)
    (h : (Validate opts env).1 = none) : env.headResult = .ok 200 := by
  unfold Validate at h
  cases hg : validateGitRepo env 0 with
  | mk rg rest =>
  cases rest with
  | mk k1 t1 =>
  cases rg with
  | some e => simp [hg] at h
  | none =>
  cases hf : validateFromBranch opts env k1 with
  | mk rf rest2 =>
  cases rest2 with
  | mk opts1 rest3 =>
  cases rest3 with
  | mk k2 t2 =>
  cases rf with
  | some e => simp [hg, hf] at h
  | none =>
  cases hl : loadConfigFile env.fs with
  | error e => simp [hg, hf, hl] at h
  | ok cfgVer =>
  cases hs : validateSemVerVersion
      (defineFromVersion { opts1 with CliVersion := cfgVer }) with
  | some e => simp [hg, hf, hl, hs] at h
  | none =>
  cases hb : validateBinaryAvailability
      (defineFromVersion { opts1 with CliVersion := cfgVer }) env with
  | mk rb t3 =>
  cases rb with
  | some e => simp [hg, hf, hl, hs, hb] at h
  | none =>
    exact validateBinaryAvailability_ok _ env (by rw [hb])

/-- C2: no command `Validate` issues creates a branch, and whenever the
resolved source version is not backed by a downloadable release artifact
(the HEAD probe does not return 200), the whole update command fails in
validation and its full trace contains no branch-creating VCS operation —
no partial VCS state. -/
theorem availabilityCheckedBeforeBranches (opts : Update) (env : Env) :
    (∀ c, Event.execCmd c ∈ (Validate opts env).2.2.2 → isBranchCreating c = false) ∧
    (env.headResult ≠ .ok 200 →
      (runUpdateCmd opts env).1 ≠ none ∧
      ∀ c, Event.execCmd c ∈ (runUpdateCmd opts env).2 → isBranchCreating c = false) := by
  constructor
  · intro c hc
    exact validationEvent_not_branchCreating c (validate_events opts env _ hc)
  · intro h
    cases hv : Validate opts env with
    | mk rv rest =>
    cases rest with
    | mk opts1 rest2 =>
    cases rest2 with
    | mk k t =>
    cases rv with
    | none =>
      exact absurd (validate_ok_implies_avail opts env (by rw [hv])) h
    | some e =>
      constructor
      · simp [runUpdateCmd, hv]
      · intro c hc
        simp [runUpdateCmd, hv] at hc
        refine validationEvent_not_branchCreating c (validate_events opts env _ ?_)
        rw [hv]
        exact hc

/-- C2 witness: with the HEAD probe answering 404 the update command fails
and creates no branch (first conjunct instantiated at the probe command
set via the theorem). -/
theorem availabilityCheckedBeforeBranches_witness :
    Except.ok 404 ≠ (Except.ok 200 : Except String Nat) ∧
    (runUpdateCmd opts0 env404).1 ≠ none := by
  refine ⟨by simp, ?_⟩
  exact ((availabilityCheckedBeforeBranches opts0 env404).2 (by simp [env404, envOK])).1

/-! ### C9: a dirty or absent repository is rejected before any mutation -/

/-- An event that mutates repository state: any process invocation other
than the two read-only git queries (`rev-parse`, `status`). -/
def isRepoMutation (ev : Event) : Bool :=
  match ev with
  | .execCmd c =>
      !(c.prog == "git" && (c.args.take 1 == ["rev-parse"] || c.args.take 1 == ["status"]))
  | _ => false

/-- C9: `Validate` fails with the not-a-repository error when the
`rev-parse --git-dir` probe fails, fails with the uncommitted-changes
error when the porcelain status output is nonempty after trimming, and in
every run performs no repository mutation whatsoever. -/
theorem validateRejectsDirtyRepo (opts : Update) (env : Env) :
    (runErr (env.exec 0).outcome ≠ none →
      (Validate opts env).1 = some (.wrap "failed to validate git repository"
        (.msg "not in a git repository"))) ∧
    (runErr (env.exec 0).outcome = none → runErr (env.exec 1).outcome = none →
      0 < (trimSpace (env.exec 1).stdout).length →
      (Validate opts env).1 = some (.wrap "failed to validate git repository"
        (.msg "working directory has uncommitted changes. Please commit or stash them before updating"))) ∧
    (∀ ev ∈ (Validate opts env).2.2.2, isRepoMutation ev = false) := by
  refine ⟨?_, ?_, ?_⟩
  · intro h
    cases h0 : runErr (env.exec 0).outcome with
    | none => exact absurd h0 h
    | some e => simp [Validate, validateGitRepo, h0]
  · intro h0 h1 hd
    simp [Validate, validateGitRepo, h0, h1, hd]
  · intro ev hev
    have h := validate_events opts env ev hev
    unfold validationEvent at h
    rcases h with h | h | ⟨b, h⟩ | h | ⟨u, h⟩ <;> subst h <;>
      simp [isRepoMutation]

/-- C9 witness: a failing repository probe and a dirty status output each
make `Validate` fail, at concrete environments. -/
theorem validateRejectsDirtyRepo_witness :
    (Validate opts0 envExec0Fails).1 = some (.wrap "failed to validate git repository"
      (.msg "not in a git repository")) ∧
    (Validate opts0 { envOK with
        exec := fun n => if n = 1 then ⟨.exited 0, " M main.go\n"⟩ else ⟨.exited 0, ""⟩ }).1 =
      some (.wrap "failed to validate git repository"
        (.msg "working directory has uncommitted changes. Please commit or stash them before updating")) := by
  constructor
  · exact (validateRejectsDirtyRepo opts0 envExec0Fails).1 (by decide)
  · exact (validateRejectsDirtyRepo opts0 _).2.1 rfl rfl (by decide)

/-! ### C6: download errors carry the status, no retry, executable on success -/

/-- Whether an event is an HTTP GET attempt. -/
def isHttpGet (ev : Event) : Bool :=
  match ev with
  | .httpGet _ => true
  | _ => false

/-- C6: a non-200 download response yields an error naming that HTTP status
and an empty path; every call performs at most one GET (no retry); and on
success the temp-directory path is returned with the binary created,
filled and chmodded 0o755 inside it. -/
theorem downloadSingleAttemptStatusError (opts : Update) (env : Env) :
    (∀ d s, env.dl.tempDirResult = .ok d → env.dl.createErr = none →
      env.dl.httpGetResult = .ok s → s ≠ 200 →
      (downloadKubebuilderBinary opts env).1 =
        ("", some (.msg ("failed to download the binary: HTTP " ++ toString s))) ∧
      (∃ pre, GoError.render (.msg ("failed to download the binary: HTTP " ++ toString s)) =
        pre ++ toString s)) ∧
    (((downloadKubebuilderBinary opts env).2.filter isHttpGet).length ≤ 1) ∧
    (∀ d, env.dl.tempDirResult = .ok d → env.dl.createErr = none →
      env.dl.httpGetResult = .ok 200 → env.dl.copyErr = none → env.dl.chmodErr = none →
      (downloadKubebuilderBinary opts env).1 = (d, none) ∧
      Event.fileCreate (d ++ "/kubebuilder") ∈ (downloadKubebuilderBinary opts env).2 ∧
      Event.ioCopy ∈ (downloadKubebuilderBinary opts env).2 ∧
      Event.chmod (d ++ "/kubebuilder") 493 ∈ (downloadKubebuilderBinary opts env).2) := by
  refine ⟨?_, ?_, ?_⟩
  · intro d s hd hc hg hs
    refine ⟨?_, ⟨"failed to download the binary: HTTP ", rfl⟩⟩
    simp [downloadKubebuilderBinary, hd, hc, hg, hs]
  · cases hd : env.dl.tempDirResult with
    | error m => simp [downloadKubebuilderBinary, hd, isHttpGet]
    | ok d =>
      cases hc : env.dl.createErr with
      | some m => simp [downloadKubebuilderBinary, hd, hc, isHttpGet]
      | none =>
        cases hg : env.dl.httpGetResult with
        | error m => simp [downloadKubebuilderBinary, hd, hc, hg, isHttpGet]
        | ok s =>
          by_cases hs : s = 200
          · cases hcp : env.dl.copyErr with
            | some m => simp [downloadKubebuilderBinary, hd, hc, hg, hs, hcp, isHttpGet]
            | none =>
              cases hch : env.dl.chmodErr with
              | some m =>
                simp [downloadKubebuilderBinary, hd, hc, hg, hs, hcp, hch, isHttpGet]
              | none =>
                simp [downloadKubebuilderBinary, hd, hc, hg, hs, hcp, hch, isHttpGet]
          · simp [downloadKubebuilderBinary, hd, hc, hg, hs, isHttpGet]
  · intro d hd hc hg hcp hch
    simp [downloadKubebuilderBinary, hd, hc, hg, hcp, hch]

/-- C6 witness: a 404 response yields the status-bearing error and empty
path, and a fully successful environment yields the temp path with the
chmod event, at concrete environments. -/
theorem downloadSingleAttemptStatusError_witness :
    ((downloadKubebuilderBinary opts0 { envOK with dl := { dlOk with httpGetResult := .ok 404 } }).1 =
      ("", some (.msg ("failed to download the binary: HTTP " ++ toString 404)))) ∧
    ((downloadKubebuilderBinary opts0 envOK).1 = ("/tmp/kubebuilderv4.5.2-1", none) ∧
      Event.chmod ("/tmp/kubebuilderv4.5.2-1" ++ "/kubebuilder") 493 ∈
        (downloadKubebuilderBinary opts0 envOK).2) := by
  constructor
  · exact ((downloadSingleAttemptStatusError opts0 _).1 "/tmp/kubebuilderv4.5.2-1" 404
      rfl rfl rfl (by decide)).1
  · have h := (downloadSingleAttemptStatusError opts0 envOK).2.2
      "/tmp/kubebuilderv4.5.2-1" rfl rfl rfl rfl rfl
    exact ⟨h.1, h.2.2.2⟩

/-! ### Stage bookkeeping for the `Update` orchestrator -/

/-- Whether a trace shows stage `j` of `Update.Update` having started:
each stage is recognized by an event only it can produce. -/
def stageHappened (j : Nat) (t : List Event) : Prop :=
  match j with
  | 1 => ∃ p, Event.tempDirCreate p ∈ t
  | 2 => Event.execCmd ⟨"git", ["checkout", "-b", "ancestor"]⟩ ∈ t
  | 3 => Event.execCmd cleanUpFindCmd ∈ t
  | 4 => ∃ v, Event.setEnvPath v ∈ t
  | 5 => Event.execCmd ⟨"git", ["checkout", "-b", "current", "ancestor"]⟩ ∈ t
  | 6 => Event.execCmd ⟨"git", ["checkout", "-b", "upgrade", "ancestor"]⟩ ∈ t
  | 7 => Event.execCmd ⟨"git", ["checkout", "-b", "merge", "current"]⟩ ∈ t
  | 8 => Event.execCmd ⟨"git", ["merge", "upgrade"]⟩ ∈ t
  | _ => False

/-- A VCS invocation that deletes or overwrites a branch ref
(`git branch ...` or `git push ...`): rollback would need one. -/
def deletesBranch (c : Cmd) : Bool :=
  c.prog == "git" && (c.args.take 1 == ["branch"] || c.args.take 1 == ["push"])

theorem stageHappened_append (j : Nat) (a b : List Event) :
    stageHappened j (a ++ b) → stageHappened j a ∨ stageHappened j b := by
  rcases j with _ | _ | _ | _ | _ | _ | _ | _ | _ | j <;>
    simp [stageHappened, List.mem_append] <;> tauto

/-! #### Events each stage can record -/

theorem download_events (opts : Update) (env : Env) :
    ∀ ev ∈ (downloadKubebuilderBinary opts env).2,
      (∃ p, ev = .tempDirCreate p) ∨ (∃ p, ev = .fileCreate p) ∨
      (∃ u, ev = .httpGet u) ∨ ev = .ioCopy ∨ (∃ p m, ev = .chmod p m) := by
  intro ev hev
  unfold downloadKubebuilderBinary at hev
  cases hd : env.dl.tempDirResult with
  | error m => simp [hd] at hev; aesop
  | ok d =>
    cases hc : env.dl.createErr with
    | some m => simp [hd, hc] at hev; aesop
    | none =>
      cases hg : env.dl.httpGetResult with
      | error m => simp [hd, hc, hg] at hev; aesop
      | ok s =>
        by_cases hs : s = 200
        · cases hcp : env.dl.copyErr with
          | some m => simp [hd, hc, hg, hs, hcp] at hev; aesop
          | none =>
            cases hch : env.dl.chmodErr with
            | some m => simp [hd, hc, hg, hs, hcp, hch] at hev; aesop
            | none => simp [hd, hc, hg, hs, hcp, hch] at hev; aesop
        · simp [hd, hc, hg, hs] at hev; aesop

theorem ancestor_events (env : Env) (k : Nat) :
    ∀ ev ∈ (checkoutAncestorBranch env k).2.2,
      ev = .execCmd ⟨"git", ["checkout", "-b", "ancestor"]⟩ := by
  intro ev hev
  unfold checkoutAncestorBranch at hev
  cases h : runErr (env.exec k).outcome <;> simp [h] at hev <;> exact hev

theorem cleanUp_events (env : Env) (k : Nat) :
    ∀ ev ∈ (cleanUpAncestorBranch env k).2.2,
      ev = .execCmd cleanUpFindCmd ∨ ev = .execCmd ⟨"git", ["add", "."]⟩ ∨
      ev = .execCmd ⟨"git", ["commit", "-m", "Clean up the ancestor branch"]⟩ := by
  intro ev hev
  unfold cleanUpAncestorBranch at hev
  cases h1 : runErr (env.exec k).outcome with
  | some e => simp [h1] at hev; aesop
  | none =>
    cases h2 : runErr (env.exec (k + 1)).outcome with
    | some e => simp [h1, h2] at hev; aesop
    | none =>
      cases h3 : runErr (env.exec (k + 2)).outcome with
      | some e => simp [h1, h2, h3] at hev; aesop
      | none => simp [h1, h2, h3] at hev; aesop

theorem alphaGen_events (tempDir version : String) (env : Env) (k : Nat) :
    ∀ ev ∈ (runAlphaGenerate tempDir version env k).2.2,
      (∃ v, ev = .setEnvPath v) ∨
      ev = .execCmd ⟨tempDir ++ "/kubebuilder", ["alpha", "generate"]⟩ ∨
      ev = .execCmd ⟨"git", ["add", "."]⟩ ∨
      ev = .execCmd ⟨"git", ["commit", "-m", "Re-scaffold in ancestor"]⟩ := by
  intro ev hev
  unfold runAlphaGenerate at hev
  cases hse : env.setenvErr with
  | some m => simp [hse] at hev; aesop
  | none =>
    cases h1 : runErr (env.exec k).outcome with
    | some e => simp [hse, h1] at hev; aesop
    | none =>
      cases h2 : runErr (env.exec (k + 1)).outcome with
      | some e => simp [hse, h1, h2] at hev; aesop
      | none =>
        cases h3 : runErr (env.exec (k + 2)).outcome with
        | some e => simp [hse, h1, h2, h3] at hev; aesop
        | none => simp [hse, h1, h2, h3] at hev; aesop

theorem current_events (opts : Update) (env : Env) (k : Nat) :
    ∀ ev ∈ (checkoutCurrentOffAncestor opts env k).2.2,
      ev = .execCmd ⟨"git", ["checkout", "-b", "current", "ancestor"]⟩ ∨
      ev = .execCmd ⟨"git", ["checkout", opts.FromBranch, "--", "."]⟩ ∨
      ev = .execCmd ⟨"git", ["add", "."]⟩ ∨
      ev = .execCmd ⟨"git", ["commit", "-m", "Add content from main onto current branch"]⟩ := by
  intro ev hev
  unfold checkoutCurrentOffAncestor at hev
  cases h1 : runErr (env.exec k).outcome with
  | some e => simp [h1] at hev; aesop
  | none =>
    cases h2 : runErr (env.exec (k + 1)).outcome with
    | some e => simp [h1, h2] at hev; aesop
    | none =>
      cases h3 : runErr (env.exec (k + 2)).outcome with
      | some e => simp [h1, h2, h3] at hev; aesop
      | none =>
        cases h4 : runErr (env.exec (k + 3)).outcome with
        | some e => simp [h1, h2, h3, h4] at hev; aesop
        | none => simp [h1, h2, h3, h4] at hev; aesop

theorem upgrade_events (env : Env) (k : Nat) :
    ∀ ev ∈ (checkoutUpgradeOffAncestor env k).2.2,
      ev = .execCmd ⟨"git", ["checkout", "-b", "upgrade", "ancestor"]⟩ ∨
      ev = .execCmd ⟨"kubebuilder", ["alpha", "generate"]⟩ ∨
      ev = .execCmd ⟨"git", ["add", "."]⟩ ∨
      ev = .execCmd ⟨"git", ["commit", "-m", "alpha generate in upgrade branch"]⟩ := by
  intro ev hev
  unfold checkoutUpgradeOffAncestor at hev
  cases h1 : runErr (env.exec k).outcome with
  | some e => simp [h1] at hev; aesop
  | none =>
    cases h2 : runErr (env.exec (k + 1)).outcome with
    | some e => simp [h1, h2] at hev; aesop
    | none =>
      cases h3 : runErr (env.exec (k + 2)).outcome with
      | some e => simp [h1, h2, h3] at hev; aesop
      | none =>
        cases h4 : runErr (env.exec (k + 3)).outcome with
        | some e => simp [h1, h2, h3, h4] at hev; aesop
        | none => simp [h1, h2, h3, h4] at hev; aesop

theorem mergeBranch_events (env : Env) (k : Nat) :
    ∀ ev ∈ (checkoutMergeOffCurrent env k).2.2,
      ev = .execCmd ⟨"git", ["checkout", "-b", "merge", "current"]⟩ := by
  intro ev hev
  unfold checkoutMergeOffCurrent at hev
  cases h : runErr (env.exec k).outcome <;> simp [h] at hev <;> exact hev

theorem merge_events (env : Env) (k : Nat) :
    ∀ ev ∈ (mergeUpgradeIntoMerge env k).2.2,
      ev = .execCmd ⟨"git", ["merge", "upgrade"]⟩ := by
  intro ev hev
  unfold mergeUpgradeIntoMerge at hev
  cases h : runErr (env.exec k).outcome with
  | none => simp [h] at hev; exact hev
  | some e =>
    cases e <;> simp [h] at hev <;> try exact hev
    case exitError c =>
      cases c with
      | zero => simp at hev; exact hev
      | succ m => cases m <;> simp at hev <;> exact hev

/-! #### No stage emits a later stage's marker, and none deletes a branch -/

theorem download_noLater (opts : Update) (env : Env) :
    ∀ j, 1 < j → j ≤ 8 → ¬ stageHappened j (downloadKubebuilderBinary opts env).2 := by
  intro j h1 h2 hs
  interval_cases j <;> simp only [stageHappened] at hs <;>
    first
    | (rcases hs with ⟨v, hv⟩
       rcases download_events opts env _ hv with ⟨p, h⟩ | ⟨p, h⟩ | ⟨u, h⟩ | h | ⟨p, m, h⟩ <;>
         simp at h)
    | (rcases download_events opts env _ hs with ⟨p, h⟩ | ⟨p, h⟩ | ⟨u, h⟩ | h | ⟨p, m, h⟩ <;>
       simp at h)

theorem ancestor_noLater (env : Env) (k : Nat) :
    ∀ j, 2 < j → j ≤ 8 → ¬ stageHappened j (checkoutAncestorBranch env k).2.2 := by
  intro j h1 h2 hs
  interval_cases j <;> simp only [stageHappened] at hs <;>
    first
    | (rcases hs with ⟨v, hv⟩
       have h := ancestor_events env k _ hv
       simp [cleanUpFindCmd] at h)
    | (have h := ancestor_events env k _ hs
       simp [cleanUpFindCmd] at h)

theorem cleanUp_noLater (env : Env) (k : Nat) :
    ∀ j, 3 < j → j ≤ 8 → ¬ stageHappened j (cleanUpAncestorBranch env k).2.2 := by
  intro j h1 h2 hs
  interval_cases j <;> simp only [stageHappened] at hs <;>
    first
    | (rcases hs with ⟨v, hv⟩
       rcases cleanUp_events env k _ hv with h | h | h <;> simp [cleanUpFindCmd] at h)
    | (rcases cleanUp_events env k _ hs with h | h | h <;> simp [cleanUpFindCmd] at h)

theorem alphaGen_noLater (tempDir version : String) (env : Env) (k : Nat) :
    ∀ j, 4 < j → j ≤ 8 → ¬ stageHappened j (runAlphaGenerate tempDir version env k).2.2 := by
  intro j h1 h2 hs
  interval_cases j <;> simp only [stageHappened] at hs <;>
    (rcases alphaGen_events tempDir version env k _ hs with ⟨v, h⟩ | h | h | h <;>
      simp at h)

theorem current_noLater (opts : Update) (env : Env) (k : Nat) :
    ∀ j, 5 < j → j ≤ 8 → ¬ stageHappened j (checkoutCurrentOffAncestor opts env k).2.2 := by
  intro j h1 h2 hs
  interval_cases j <;> simp only [stageHappened] at hs <;>
    (rcases current_events opts env k _ hs with h | h | h | h <;> simp at h)

theorem upgrade_noLater (env : Env) (k : Nat) :
    ∀ j, 6 < j → j ≤ 8 → ¬ stageHappened j (checkoutUpgradeOffAncestor env k).2.2 := by
  intro j h1 h2 hs
  interval_cases j <;> simp only [stageHappened] at hs <;>
    (rcases upgrade_events env k _ hs with h | h | h | h <;> simp at h)

theorem mergeBranch_noLater (env : Env) (k : Nat) :
    ∀ j, 7 < j → j ≤ 8 → ¬ stageHappened j (checkoutMergeOffCurrent env k).2.2 := by
  intro j h1 h2 hs
  interval_cases j
  simp only [stageHappened] at hs
  have h := mergeBranch_events env k _ hs
  simp at h

theorem download_noDelete (opts : Update) (env : Env) :
    ∀ c, Event.execCmd c ∈ (downloadKubebuilderBinary opts env).2 →
      deletesBranch c = false := by
  intro c hc
  rcases download_events opts env _ hc with ⟨p, h⟩ | ⟨p, h⟩ | ⟨u, h⟩ | h | ⟨p, m, h⟩ <;>
    simp at h

theorem ancestor_noDelete (env : Env) (k : Nat) :
    ∀ c, Event.execCmd c ∈ (checkoutAncestorBranch env k).2.2 →
      deletesBranch c = false := by
  intro c hc
  have h := ancestor_events env k _ hc
  simp only [Event.execCmd.injEq] at h
  subst h
  decide

theorem cleanUp_noDelete (env : Env) (k : Nat) :
    ∀ c, Event.execCmd c ∈ (cleanUpAncestorBranch env k).2.2 →
      deletesBranch c = false := by
  intro c hc
  rcases cleanUp_events env k _ hc with h | h | h <;>
    simp only [Event.execCmd.injEq] at h <;> subst h <;> decide

theorem alphaGen_noDelete (tempDir version : String) (env : Env) (k : Nat) :
    ∀ c, Event.execCmd c ∈ (runAlphaGenerate tempDir version env k).2.2 →
      deletesBranch c = false := by
  intro c hc
  rcases alphaGen_events tempDir version env k _ hc with ⟨v, h⟩ | h | h | h
  · simp at h
  · simp only [Event.execCmd.injEq] at h; subst h; simp [deletesBranch]
  · simp only [Event.execCmd.injEq] at h; subst h; decide
  · simp only [Event.execCmd.injEq] at h; subst h; decide

theorem current_noDelete (opts : Update) (env : Env) (k : Nat) :
    ∀ c, Event.execCmd c ∈ (checkoutCurrentOffAncestor opts env k).2.2 →
      deletesBranch c = false := by
  intro c hc
  rcases current_events opts env k _ hc with h | h | h | h <;>
    simp only [Event.execCmd.injEq] at h <;> subst h
  · decide
  · simp [deletesBranch]
  · decide
  · decide

theorem upgrade_noDelete (env : Env) (k : Nat) :
    ∀ c, Event.execCmd c ∈ (checkoutUpgradeOffAncestor env k).2.2 →
      deletesBranch c = false := by
  intro c hc
  rcases upgrade_events env k _ hc with h | h | h | h <;>
    simp only [Event.execCmd.injEq] at h <;> subst h <;> decide

theorem mergeBranch_noDelete (env : Env) (k : Nat) :
    ∀ c, Event.execCmd c ∈ (checkoutMergeOffCurrent env k).2.2 →
      deletesBranch c = false := by
  intro c hc
  have h := mergeBranch_events env k _ hc
  simp only [Event.execCmd.injEq] at h
  subst h
  decide

theorem merge_noDelete (env : Env) (k : Nat) :
    ∀ c, Event.execCmd c ∈ (mergeUpgradeIntoMerge env k).2.2 →
      deletesBranch c = false := by
  intro c hc
  have h := merge_events env k _ hc
  simp only [Event.execCmd.injEq] at h
  subst h
  decide

/-! #### Stage messages are pairwise distinct -/

theorem stageWrapMsg_one_char (opts : Update) :
    (stageWrapMsg opts 1).data[10]? = some 'd' := by
  show ("failed to download Kubebuilder " ++ opts.CliVersion ++ " binary").data[10]? = some 'd'
  rw [String.data_append, String.data_append]
  have h1 : 10 < ("failed to download Kubebuilder ".data ++ opts.CliVersion.data).length := by
    rw [List.length_append]
    have h0 : ("failed to download Kubebuilder ".data).length = 31 := by decide
    omega
  rw [List.getElem?_append_left h1, List.getElem?_append_left (by decide)]
  decide

theorem stageWrapMsg_distinct (opts : Update) :
    ∀ i j, 1 ≤ i → i < j → j ≤ 8 → stageWrapMsg opts i ≠ stageWrapMsg opts j := by
  intro i j hi hij hj
  have hi8 : i ≤ 7 := by omega
  interval_cases i <;> interval_cases j <;>
    first
    | (simp only [stageWrapMsg]; decide)
    | (intro hEq
       have hc := congrArg (fun s => s.data[10]?) hEq
       simp only at hc
       rw [stageWrapMsg_one_char] at hc
       simp only [stageWrapMsg] at hc
       exact absurd hc (by decide))

/-! #### The orchestrator aborts at the failing stage -/

theorem update_abort (opts : Update) (env : Env) (k : Nat) :
    ∀ e, (Update.Update opts env k).1 = some e →
      ∃ i, 1 ≤ i ∧ i ≤ 8 ∧ (∃ inner, e = GoError.wrap (stageWrapMsg opts i) inner) ∧
        ∀ j, i < j → j ≤ 8 → ¬ stageHappened j (Update.Update opts env k).2.2 := by
  intro e he
  unfold Update.Update at he ⊢
  cases hdl : downloadKubebuilderBinary opts env with
  | mk res t1 =>
  cases res with
  | mk dir err1 =>
  cases err1 with
  | some e0 =>
    simp only [hdl] at he ⊢
    injection he with he'
    refine ⟨1, by omega, by omega, ⟨e0, he'.symm⟩, ?_⟩
    intro j hj1 hj2 hs
    have hd := download_noLater opts env j (by omega) hj2
    rw [hdl] at hd
    exact hd hs
  | none =>
  cases ha : checkoutAncestorBranch env k with
  | mk r2 rest2 =>
  cases rest2 with
  | mk k1 t2 =>
  cases r2 with
  | some e0 =>
    simp only [hdl, ha] at he ⊢
    injection he with he'
    refine ⟨2, by omega, by omega, ⟨e0, he'.symm⟩, ?_⟩
    intro j hj1 hj2 hs
    rcases stageHappened_append j t1 t2 hs with h | h
    · have hd := download_noLater opts env j (by omega) hj2; rw [hdl] at hd; exact hd h
    · have hd := ancestor_noLater env k j (by omega) hj2; rw [ha] at hd; exact hd h
  | none =>
  cases hcl : cleanUpAncestorBranch env k1 with
  | mk r3 rest3 =>
  cases rest3 with
  | mk k2 t3 =>
  cases r3 with
  | some e0 =>
    simp only [hdl, ha, hcl] at he ⊢
    injection he with he'
    refine ⟨3, by omega, by omega, ⟨e0, he'.symm⟩, ?_⟩
    intro j hj1 hj2 hs
    rcases stageHappened_append j (t1 ++ t2) t3 hs with h | h
    · rcases stageHappened_append j t1 t2 h with h' | h'
      · have hd := download_noLater opts env j (by omega) hj2; rw [hdl] at hd; exact hd h'
      · have hd := ancestor_noLater env k j (by omega) hj2; rw [ha] at hd; exact hd h'
    · have hd := cleanUp_noLater env k1 j (by omega) hj2; rw [hcl] at hd; exact hd h
  | none =>
  cases hag : runAlphaGenerate dir opts.CliVersion env k2 with
  | mk r4 rest4 =>
  cases rest4 with
  | mk k3 t4 =>
  cases r4 with
  | some e0 =>
    simp only [hdl, ha, hcl, hag] at he ⊢
    injection he with he'
    refine ⟨4, by omega, by omega, ⟨e0, he'.symm⟩, ?_⟩
    intro j hj1 hj2 hs
    rcases stageHappened_append j (t1 ++ t2 ++ t3) t4 hs with h | h
    · rcases stageHappened_append j (t1 ++ t2) t3 h with h' | h'
      · rcases stageHappened_append j t1 t2 h' with h'' | h''
        · have hd := download_noLater opts env j (by omega) hj2; rw [hdl] at hd; exact hd h''
        · have hd := ancestor_noLater env k j (by omega) hj2; rw [ha] at hd; exact hd h''
      · have hd := cleanUp_noLater env k1 j (by omega) hj2; rw [hcl] at hd; exact hd h'
    · have hd := alphaGen_noLater dir opts.CliVersion env k2 j (by omega) hj2
      rw [hag] at hd; exact hd h
  | none =>
  cases hcu : checkoutCurrentOffAncestor opts env k3 with
  | mk r5 rest5 =>
  cases rest5 with
  | mk k4 t5 =>
  cases r5 with
  | some e0 =>
    simp only [hdl, ha, hcl, hag, hcu] at he ⊢
    injection he with he'
    refine ⟨5, by omega, by omega, ⟨e0, he'.symm⟩, ?_⟩
    intro j hj1 hj2 hs
    rcases stageHappened_append j (t1 ++ t2 ++ t3 ++ t4) t5 hs with h | h
    · rcases stageHappened_append j (t1 ++ t2 ++ t3) t4 h with h' | h'
      · rcases stageHappened_append j (t1 ++ t2) t3 h' with h'' | h''
        · rcases stageHappened_append j t1 t2 h'' with h3 | h3
          · have hd := download_noLater opts env j (by omega) hj2; rw [hdl] at hd; exact hd h3
          · have hd := ancestor_noLater env k j (by omega) hj2; rw [ha] at hd; exact hd h3
        · have hd := cleanUp_noLater env k1 j (by omega) hj2; rw [hcl] at hd; exact hd h''
      · have hd := alphaGen_noLater dir opts.CliVersion env k2 j (by omega) hj2
        rw [hag] at hd; exact hd h'
    · have hd := current_noLater opts env k3 j (by omega) hj2; rw [hcu] at hd; exact hd h
  | none =>
  cases hup : checkoutUpgradeOffAncestor env k4 with
  | mk r6 rest6 =>
  cases rest6 with
  | mk k5 t6 =>
  cases r6 with
  | some e0 =>
    simp only [hdl, ha, hcl, hag, hcu, hup] at he ⊢
    injection he with he'
    refine ⟨6, by omega, by omega, ⟨e0, he'.symm⟩, ?_⟩
    intro j hj1 hj2 hs
    rcases stageHappened_append j (t1 ++ t2 ++ t3 ++ t4 ++ t5) t6 hs with h | h
    · rcases stageHappened_append j (t1 ++ t2 ++ t3 ++ t4) t5 h with h' | h'
      · rcases stageHappened_append j (t1 ++ t2 ++ t3) t4 h' with h'' | h''
        · rcases stageHappened_append j (t1 ++ t2) t3 h'' with h3 | h3
          · rcases stageHappened_append j t1 t2 h3 with h4 | h4
            · have hd := download_noLater opts env j (by omega) hj2; rw [hdl] at hd; exact hd h4
            · have hd := ancestor_noLater env k j (by omega) hj2; rw [ha] at hd; exact hd h4
          · have hd := cleanUp_noLater env k1 j (by omega) hj2; rw [hcl] at hd; exact hd h3
        · have hd := alphaGen_noLater dir opts.CliVersion env k2 j (by omega) hj2
          rw [hag] at hd; exact hd h''
      · have hd := current_noLater opts env k3 j (by omega) hj2; rw [hcu] at hd; exact hd h'
    · have hd := upgrade_noLater env k4 j (by omega) hj2; rw [hup] at hd; exact hd h
  | none =>
  cases hmb : checkoutMergeOffCurrent env k5 with
  | mk r7 rest7 =>
  cases rest7 with
  | mk k6 t7 =>
  cases r7 with
  | some e0 =>
    simp only [hdl, ha, hcl, hag, hcu, hup, hmb] at he ⊢
    injection he with he'
    refine ⟨7, by omega, by omega, ⟨e0, he'.symm⟩, ?_⟩
    intro j hj1 hj2 hs
    rcases stageHappened_append j (t1 ++ t2 ++ t3 ++ t4 ++ t5 ++ t6) t7 hs with h | h
    · rcases stageHappened_append j (t1 ++ t2 ++ t3 ++ t4 ++ t5) t6 h with h' | h'
      · rcases stageHappened_append j (t1 ++ t2 ++ t3 ++ t4) t5 h' with h'' | h''
        · rcases stageHappened_append j (t1 ++ t2 ++ t3) t4 h'' with h3 | h3
          · rcases stageHappened_append j (t1 ++ t2) t3 h3 with h4 | h4
            · rcases stageHappened_append j t1 t2 h4 with h5 | h5
              · have hd := download_noLater opts env j (by omega) hj2; rw [hdl] at hd; exact hd h5
              · have hd := ancestor_noLater env k j (by omega) hj2; rw [ha] at hd; exact hd h5
            · have hd := cleanUp_noLater env k1 j (by omega) hj2; rw [hcl] at hd; exact hd h4
          · have hd := alphaGen_noLater dir opts.CliVersion env k2 j (by omega) hj2
            rw [hag] at hd; exact hd h3
        · have hd := current_noLater opts env k3 j (by omega) hj2; rw [hcu] at hd; exact hd h''
      · have hd := upgrade_noLater env k4 j (by omega) hj2; rw [hup] at hd; exact hd h'
    · have hd := mergeBranch_noLater env k5 j (by omega) hj2; rw [hmb] at hd; exact hd h
  | none =>
  cases hmg : mergeUpgradeIntoMerge env k6 with
  | mk r8 rest8 =>
  cases rest8 with
  | mk k7 t8 =>
  cases r8 with
  | some e0 =>
    simp only [hdl, ha, hcl, hag, hcu, hup, hmb, hmg] at he ⊢
    injection he with he'
    refine ⟨8, by omega, by omega, ⟨e0, he'.symm⟩, ?_⟩
    intro j hj1 hj2 hs
    omega
  | none =>
    simp only [hdl, ha, hcl, hag, hcu, hup, hmb, hmg] at he
    exact Option.noConfusion he

/-! #### The orchestrator never deletes a branch -/

theorem update_noDelete (opts : Update) (env : Env) (k : Nat) :
    ∀ c, Event.execCmd c ∈ (Update.Update opts env k).2.2 → deletesBranch c = false := by
  intro c hc
  unfold Update.Update at hc
  cases hdl : downloadKubebuilderBinary opts env with
  | mk res t1 =>
  cases res with
  | mk dir err1 =>
  have hD : Event.execCmd c ∈ t1 → deletesBranch c = false := by
    intro h
    have hd := download_noDelete opts env c
    rw [hdl] at hd
    exact hd h
  cases err1 with
  | some e0 =>
    simp only [hdl] at hc
    exact hD hc
  | none =>
  cases ha : checkoutAncestorBranch env k with
  | mk r2 rest2 =>
  cases rest2 with
  | mk k1 t2 =>
  have hA : Event.execCmd c ∈ t2 → deletesBranch c = false := by
    intro h
    have hd := ancestor_noDelete env k c
    rw [ha] at hd
    exact hd h
  cases r2 with
  | some e0 =>
    simp only [hdl, ha] at hc
    rcases List.mem_append.mp hc with h | h
    · exact hD h
    · exact hA h
  | none =>
  cases hcl : cleanUpAncestorBranch env k1 with
  | mk r3 rest3 =>
  cases rest3 with
  | mk k2 t3 =>
  have hC : Event.execCmd c ∈ t3 → deletesBranch c = false := by
    intro h
    have hd := cleanUp_noDelete env k1 c
    rw [hcl] at hd
    exact hd h
  cases r3 with
  | some e0 =>
    simp only [hdl, ha, hcl] at hc
    rcases List.mem_append.mp hc with h | h
    · rcases List.mem_append.mp h with h' | h'
      · exact hD h'
      · exact hA h'
    · exact hC h
  | none =>
  cases hag : runAlphaGenerate dir opts.CliVersion env k2 with
  | mk r4 rest4 =>
  cases rest4 with
  | mk k3 t4 =>
  have hG : Event.execCmd c ∈ t4 → deletesBranch c = false := by
    intro h
    have hd := alphaGen_noDelete dir opts.CliVersion env k2 c
    rw [hag] at hd
    exact hd h
  cases r4 with
  | some e0 =>
    simp only [hdl, ha, hcl, hag] at hc
    rcases List.mem_append.mp hc with h | h
    · rcases List.mem_append.mp h with h' | h'
      · rcases List.mem_append.mp h' with h'' | h''
        · exact hD h''
        · exact hA h''
      · exact hC h'
    · exact hG h
  | none =>
  cases hcu : checkoutCurrentOffAncestor opts env k3 with
  | mk r5 rest5 =>
  cases rest5 with
  | mk k4 t5 =>
  have hU : Event.execCmd c ∈ t5 → deletesBranch c = false := by
    intro h
    have hd := current_noDelete opts env k3 c
    rw [hcu] at hd
    exact hd h
  cases r5 with
  | some e0 =>
    simp only [hdl, ha, hcl, hag, hcu] at hc
    rcases List.mem_append.mp hc with h | h
    · rcases List.mem_append.mp h with h' | h'
      · rcases List.mem_append.mp h' with h'' | h''
        · rcases List.mem_append.mp h'' with h3 | h3
          · exact hD h3
          · exact hA h3
        · exact hC h''
      · exact hG h'
    · exact hU h
  | none =>
  cases hup : checkoutUpgradeOffAncestor env k4 with
  | mk r6 rest6 =>
  cases rest6 with
  | mk k5 t6 =>
  have hV : Event.execCmd c ∈ t6 → deletesBranch c = false := by
    intro h
    have hd := upgrade_noDelete env k4 c
    rw [hup] at hd
    exact hd h
  cases r6 with
  | some e0 =>
    simp only [hdl, ha, hcl, hag, hcu, hup] at hc
    rcases List.mem_append.mp hc with h | h
    · rcases List.mem_append.mp h with h' | h'
      · rcases List.mem_append.mp h' with h'' | h''
        · rcases List.mem_append.mp h'' with h3 | h3
          · rcases List.mem_append.mp h3 with h4 | h4
            · exact hD h4
            · exact hA h4
          · exact hC h3
        · exact hG h''
      · exact hU h'
    · exact hV h
  | none =>
  cases hmb : checkoutMergeOffCurrent env k5 with
  | mk r7 rest7 =>
  cases rest7 with
  | mk k6 t7 =>
  have hW : Event.execCmd c ∈ t7 → deletesBranch c = false := by
    intro h
    have hd := mergeBranch_noDelete env k5 c
    rw [hmb] at hd
    exact hd h
  cases r7 with
  | some e0 =>
    simp only [hdl, ha, hcl, hag, hcu, hup, hmb] at hc
    rcases List.mem_append.mp hc with h | h
    · rcases List.mem_append.mp h with h' | h'
      · rcases List.mem_append.mp h' with h'' | h''
        · rcases List.mem_append.mp h'' with h3 | h3
          · rcases List.mem_append.mp h3 with h4 | h4
            · rcases List.mem_append.mp h4 with h5 | h5
              · exact hD h5
              · exact hA h5
            · exact hC h4
          · exact hG h3
        · exact hU h''
      · exact hV h'
    · exact hW h
  | none =>
  cases hmg : mergeUpgradeIntoMerge env k6 with
  | mk r8 rest8 =>
  cases rest8 with
  | mk k7 t8 =>
  have hM : Event.execCmd c ∈ t8 → deletesBranch c = false := by
    intro h
    have hd := merge_noDelete env k6 c
    rw [hmg] at hd
    exact hd h
  have hall : Event.execCmd c ∈ t1 ++ t2 ++ t3 ++ t4 ++ t5 ++ t6 ++ t7 ++ t8 →
      deletesBranch c = false := by
    intro h
    rcases List.mem_append.mp h with h | h
    · rcases List.mem_append.mp h with h' | h'
      · rcases List.mem_append.mp h' with h'' | h''
        · rcases List.mem_append.mp h'' with h3 | h3
          · rcases List.mem_append.mp h3 with h4 | h4
            · rcases List.mem_append.mp h4 with h5 | h5
              · rcases List.mem_append.mp h5 with h6 | h6
                · exact hD h6
                · exact hA h6
              · exact hC h5
            · exact hG h4
          · exact hU h3
        · exact hV h''
      · exact hW h'
    · exact hM h
  cases r8 with
  | some e0 =>
    simp only [hdl, ha, hcl, hag, hcu, hup, hmb, hmg] at hc
    exact hall hc
  | none =>
    simp only [hdl, ha, hcl, hag, hcu, hup, hmb, hmg] at hc
    exact hall hc

/-! ### C8: stagewise failure identification, abort, no rollback -/

/-- C8: whenever `Update` fails, the error is a wrap whose message is the
failing stage's identifying message (the eight messages are pairwise
distinct), no later stage has started according to the trace, and in every
run no issued command deletes a branch — already-created branches are
never rolled back. -/
theorem updateStagewiseAbort (opts : Update) (env : Env) (k : Nat) :
    (∀ e, (Update.Update opts env k).1 = some e →
      ∃ i, 1 ≤ i ∧ i ≤ 8 ∧ (∃ inner, e = GoError.wrap (stageWrapMsg opts i) inner) ∧
        ∀ j, i < j → j ≤ 8 → ¬ stageHappened j (Update.Update opts env k).2.2) ∧
    (∀ i j, 1 ≤ i → i < j → j ≤ 8 → stageWrapMsg opts i ≠ stageWrapMsg opts j) ∧
    (∀ c, Event.execCmd c ∈ (Update.Update opts env k).2.2 → deletesBranch c = false) :=
  ⟨update_abort opts env k, stageWrapMsg_distinct opts, update_noDelete opts env k⟩

/-- C8 witness: when the ancestor checkout (stage 2) fails with exit code
128, the theorem yields the stage identification and the absence of later
stages, at a concrete environment. -/
theorem updateStagewiseAbort_witness :
    ∃ i, 1 ≤ i ∧ i ≤ 8 ∧
      (∃ inner, GoError.wrap (stageWrapMsg opts0 2)
          (GoError.wrap "failed to create and checkout ancestor branch"
            (GoError.exitError 128)) =
        GoError.wrap (stageWrapMsg opts0 i) inner) ∧
      ∀ j, i < j → j ≤ 8 →
        ¬ stageHappened j (Update.Update opts0 envExec0Fails 0).2.2 :=
  (updateStagewiseAbort opts0 envExec0Fails 0).1
    (GoError.wrap (stageWrapMsg opts0 2)
      (GoError.wrap "failed to create and checkout ancestor branch"
        (GoError.exitError 128))) (by decide)

end KubebuilderUpdate
